import Mathlib

/-!
Verification development for the tk-multi-breakdown2 published-file
resolution and update engine.

The definitions below are a shallow embedding of the Python sources:

* `src/hooks/get_published_files.py` — the catalog-query hook
  (`GetPublishedFiles`): batched lookup, single-item latest lookup,
  and path-based resolution.
* `src/python/tk_multi_breakdown2/api/manager.py` — the
  `BreakdownManager` façade.
* `src/hooks/tk-nuke_scene_operations.py` and
  `src/hooks/tk-vred_scene_operations.py` — scene-adapter `update`
  operations.

Python dictionaries holding ShotGrid records become Lean structures;
the pluggable collaborators (the catalog `find`/`find_one` calls, the
asynchronous data retriever, and the scene-update hook) become function
parameters.  Each embedded operation additionally returns the list of
queries (or adapter calls) it issued, so that short-circuit contracts
("no query is issued on empty input") are expressible.
-/

/-- A ShotGrid field value as it appears in a published-file record:
either absent (`None` in Python), an entity link (identified here by its
id), or a string.  `empty` stands for Python `None`. -/
inductive FVal where
  | empty : FVal
  | ent : Nat → FVal
  | str : String → FVal
deriving DecidableEq, Repr

/-- Python truthiness of a ShotGrid field value: `None` is falsy, an
entity link dict is truthy, a string is truthy iff non-empty. -/
def FVal.truthy : FVal → Bool
  | .empty => false
  | .ent _ => true
  | .str s => s ≠ ""

/-- Opaque side-channel payload (`extra_data`) round-tripped to the
scene adapter; never inspected by the engine. -/
abbrev ExtraData := Nat

/-- A published-file record (`sg_data` dictionary): the five identity
fields used by the query filters, the two ordering keys, and the
resolved local path (`sg_data["path"]["local_path"]`, absent when the
nested lookup would yield `None`). -/
structure SgData where
  project : FVal := .empty
  entity : FVal := .empty
  task : FVal := .empty
  name : FVal := .empty
  published_file_type : FVal := .empty
  version_number : Nat := 0
  created_at : Nat := 0
  path_local : Option String := none
deriving DecidableEq, Repr

/-- A ShotGrid API filter expression, as constructed by the hooks: an
`is` (equality) predicate, an `in` (membership) predicate, or a
composite `filter_operator` dict.  The hooks only ever build composite
filters with exactly two members, so the combinators are binary. -/
inductive SgFilter where
  | isf (field : String) (value : FVal)
  | inf (field : String) (values : List FVal)
  | anyf (f g : SgFilter)
  | allf (f g : SgFilter)
deriving DecidableEq, Repr

/-- The value a record exposes for a queried field name. -/
def fieldVal (r : SgData) : String → FVal
  | "project" => r.project
  | "entity" => r.entity
  | "task" => r.task
  | "name" => r.name
  | "published_file_type" => r.published_file_type
  | _ => .empty

/-- Modelled from the spec: the Catalog Client's filter semantics
(spec section 6, "a structured boolean expression over
equality/\"in\"/\"is empty\" predicates").  An `is` predicate with value
`None` matches records whose field is empty; an `in` predicate matches
records whose field value is a member of the candidate list, so `in []`
matches nothing. -/
def SgFilter.matches (r : SgData) : SgFilter → Bool
  | .isf f v => fieldVal r f == v
  | .inf f vs => vs.contains (fieldVal r f)
  | .anyf a b => a.matches r || b.matches r
  | .allf a b => a.matches r && b.matches r

/-- A top-level filter list is a conjunction of its members. -/
def matchesAll (fs : List SgFilter) (r : SgData) : Bool :=
  fs.all (SgFilter.matches r)

/-- Sort direction of an `order` entry. -/
inductive Direction where
  | asc : Direction
  | desc : Direction
deriving DecidableEq, Repr

/-- One entry of the `order` argument of a catalog query. -/
structure OrderField where
  field_name : String
  direction : Direction
deriving DecidableEq, Repr

/-- A catalog query as issued by the embedded operations: entity type,
filter list and ordering.  (The `fields` projection argument carries no
behaviour relevant to the claims and is not modelled.) -/
structure Query where
  entity_type : String
  filters : List SgFilter
  order : List OrderField
deriving DecidableEq, Repr

/-- The two-key ordering specification of the spec: `version_number`
descending, then `created_at` descending. -/
def twoKeyOrder : List OrderField :=
  [⟨"version_number", .desc⟩, ⟨"created_at", .desc⟩]

/-- "later or equal" under the two-key ordering: `a` is at least as
recent as `b` when `a` has the strictly larger version number, or the
same version number and a `created_at` at least as large. -/
def laterEq (a b : SgData) : Prop :=
  b.version_number < a.version_number ∨
    (a.version_number = b.version_number ∧ b.created_at ≤ a.created_at)

instance (a b : SgData) : Decidable (laterEq a b) := by
  unfold laterEq; infer_instance

/-- Result value of a published-files lookup, mirroring the Python
return values: `None`, the empty dict `{}` returned by the empty-input
guards, a list of records (synchronous `find`), or a background task id
(asynchronous mode). -/
inductive FindResult where
  | pyNone : FindResult
  | pyEmptyDict : FindResult
  | pyList (rs : List SgData) : FindResult
  | pyTaskId (n : Nat) : FindResult
deriving DecidableEq, Repr

/-- Result value of a latest-published-file lookup: `None`, the empty
dict `{}`, a single record, or a background task id. -/
inductive LatestResult where
  | pyNone : LatestResult
  | pyEmptyDict : LatestResult
  | pyRecord (r : SgData) : LatestResult
  | pyTaskId (n : Nat) : LatestResult
deriving DecidableEq, Repr

/-! ## `GetPublishedFiles.get_published_files_for_items` (hook, lines 57-148)

The hook reads only each item's `sg_data` dictionary, so the embedding
takes the list of those dictionaries. -/

/-- The `tasks` list accumulated by the hook's loop: the `task` values
of the items whose task is truthy, in order (lines 80-83). -/
def tasksOf (items : List SgData) : List FVal :=
  (items.filter (fun s => s.task.truthy)).map (·.task)

/-- The `entities` list accumulated by the hook's loop: the `entity`
values of the items whose task is falsy, in order (lines 84-86). -/
def entitiesOf (items : List SgData) : List FVal :=
  (items.filter (fun s => !s.task.truthy)).map (·.entity)

/-- The `names` list accumulated by the hook's loop (line 87). -/
def namesOf (items : List SgData) : List FVal :=
  items.map (·.name)

/-- The `pf_types` list accumulated by the hook's loop (line 88). -/
def pfTypesOf (items : List SgData) : List FVal :=
  items.map (·.published_file_type)

/-- The composite task/entity filter the hook appends for a batch that
mixes items with and without a task (lines 99-113): match records
whose task is in the task list, or records with an empty task whose
entity is in the entity list. -/
def mixed_task_filter (items : List SgData) : SgFilter :=
  .anyf (.inf "task" (tasksOf items))
    (.allf (.inf "entity" (entitiesOf items)) (.isf "task" .empty))

/-- The full filter list built by
`get_published_files_for_items` (lines 76-123). -/
def build_items_filters (items : List SgData) : List SgFilter :=
  let base : List SgFilter :=
    [.inf "name" (namesOf items), .inf "published_file_type" (pfTypesOf items)]
  if tasksOf items ≠ [] then
    if entitiesOf items ≠ [] then
      base ++ [mixed_task_filter items]
    else
      base ++ [.inf "task" (tasksOf items)]
  else
    base ++ [.inf "entity" (entitiesOf items), .isf "task" .empty]

/-- Embedding of `GetPublishedFiles.get_published_files_for_items`
(hook lines 57-148).  `find` is the synchronous catalog client,
`retr` the optional asynchronous data retriever.  Returns the Python
return value together with the list of catalog queries issued. -/
def hook_get_published_files_for_items (find : Query → List SgData)
    (retr : Option (Query → Nat)) (items : List SgData) :
    FindResult × List Query :=
  if items.isEmpty then (.pyEmptyDict, [])
  else
    let q : Query :=
      ⟨"PublishedFile", build_items_filters items,
        [⟨"version_number", .desc⟩, ⟨"created_at", .desc⟩]⟩
    match retr with
    | some ex => (.pyTaskId (ex q), [q])
    | none => (.pyList (find q), [q])

/-! ## `GetPublishedFiles.get_latest_published_file` (hook, lines 150-203) -/

/-- The filter list built by `get_latest_published_file`
(lines 165-177): equality on name and published-file type, then either
equality on the task (when truthy) or equality on the entity together
with an explicit empty-task predicate. -/
def build_latest_filters (sg : SgData) : List SgFilter :=
  [.isf "name" sg.name, .isf "published_file_type" sg.published_file_type]
    ++ (if sg.task.truthy then [.isf "task" sg.task]
        else [.isf "entity" sg.entity, .isf "task" .empty])

/-- The single catalog query issued by `get_latest_published_file`. -/
def latestQuery (sg : SgData) : Query :=
  ⟨"PublishedFile", build_latest_filters sg, twoKeyOrder⟩

/-- Embedding of `GetPublishedFiles.get_latest_published_file`
(hook lines 150-203).  The hook reads only the item's `sg_data`. -/
def hook_get_latest_published_file (find_one : Query → Option SgData)
    (retr : Option (Query → Nat)) (sg : SgData) :
    LatestResult × List Query :=
  let q : Query :=
    ⟨"PublishedFile", build_latest_filters sg,
      [⟨"version_number", .desc⟩, ⟨"created_at", .desc⟩]⟩
  match retr with
  | some ex => (.pyTaskId (ex q), [q])
  | none =>
    match find_one q with
    | some r => (.pyRecord r, [q])
    | none => (.pyNone, [q])

/-! ## The `FileItem` value type and the `BreakdownManager` façade -/

/-- Modelled from the spec: the FileItem / FileReference value type
(spec section 3; `api/item.py` is not among the given sources).  Fields:
node name, node type, on-disk path, opaque extra data, the currently
matched record and the latest record of the same identity group. -/
structure FileItem where
  node_name : String
  node_type : String
  path : String
  extra_data : Option ExtraData := none
  sg_data : Option SgData := none
  latest_published_file : Option SgData := none
deriving DecidableEq, Repr

/-- The dictionary form of an item handed to the scene-adapter hooks:
the keys produced by `scan_scene` plus the `sg_data` key. -/
structure ItemDict where
  node_name : String
  node_type : String
  path : String
  extra_data : Option ExtraData := none
  sg_data : Option SgData := none
deriving DecidableEq, Repr

/-- Modelled from the spec: `FileItem.to_dict` (spec section 4.4,
"constructs an immutable snapshot of the reference", and section 6,
the adapter's `update` argument `{node_name, node_type, path,
extra_data, catalog_data}`; `api/item.py` is not among the given
sources). -/
def fileItem_to_dict (item : FileItem) : ItemDict :=
  { node_name := item.node_name, node_type := item.node_type,
    path := item.path, extra_data := item.extra_data,
    sg_data := item.sg_data }

/-- The snapshot dictionary `update_to_specific_version` passes to the
scene adapter: `item.to_dict()` with its `sg_data` key replaced by the
target record (manager lines 278-279). -/
def snapshot (item : FileItem) (sg : SgData) : ItemDict :=
  { fileItem_to_dict item with sg_data := some sg }

/-- A scene adapter's `update` return value: the new path string that
was set, or `False` / `None` when no update was done. -/
inductive UpdRet where
  | pyFalse : UpdRet
  | pyNone : UpdRet
  | pyStr (s : String) : UpdRet
deriving DecidableEq, Repr

/-- Python truthiness of an adapter return value: `False` and `None`
are falsy, a string is truthy iff non-empty. -/
def UpdRet.truthy : UpdRet → Bool
  | .pyFalse => false
  | .pyNone => false
  | .pyStr s => s ≠ ""

/-- Embedding of `BreakdownManager.update_to_specific_version`
(manager lines 264-294).  `upd` is the scene adapter's `update` hook.
Returns the (possibly updated) item, the boolean return value, and the
list of adapter invocations with their argument dictionaries. -/
def manager_update_to_specific_version (upd : ItemDict → UpdRet)
    (item : FileItem) (sg : SgData) : FileItem × Bool × List ItemDict :=
  let item_dict := snapshot item sg
  let new_path := upd item_dict
  ( (match new_path with
     | .pyStr s =>
       if s ≠ "" then
         { item with sg_data := some sg, path := s,
                     extra_data := item_dict.extra_data }
       else item
     | _ => item),
    new_path.truthy,
    [item_dict] )

/-- Embedding of `BreakdownManager.update_to_latest_version`
(manager lines 247-262): return `False` when no latest published file
is known, otherwise delegate to `update_to_specific_version`. -/
def manager_update_to_latest_version (upd : ItemDict → UpdRet)
    (item : FileItem) : FileItem × Bool × List ItemDict :=
  match item.latest_published_file with
  | none => (item, false, [])
  | some latest => manager_update_to_specific_version upd item latest

/-- Embedding of `BreakdownManager.get_latest_published_file`
(manager lines 144-172): guard on a falsy item or unset `sg_data`,
delegate to the hook, and in the synchronous case write the result
onto `latest_published_file`.  The last component counts hook
invocations. -/
def manager_get_latest_published_file (find_one : Query → Option SgData)
    (retr : Option (Query → Nat)) (item : Option FileItem) :
    Option FileItem × LatestResult × Nat :=
  match item with
  | none => (none, (if retr.isSome then .pyNone else .pyEmptyDict), 0)
  | some it =>
    match it.sg_data with
    | none => (some it, (if retr.isSome then .pyNone else .pyEmptyDict), 0)
    | some sg =>
      let hres := hook_get_latest_published_file find_one retr sg
      match retr with
      | none =>
        let latest : Option SgData :=
          match hres.1 with
          | .pyRecord r => some r
          | _ => none
        (some { it with latest_published_file := latest }, hres.1, 1)
      | some _ => (some it, hres.1, 1)

/-- Embedding of `BreakdownManager.get_published_files_for_items`
(manager lines 174-201).  The hook implementation is pluggable
(`execute_hook_method`), so it is a parameter; the manager only guards
the empty input and delegates. -/
def manager_get_published_files_for_items
    (hook : Option (Query → Nat) → List FileItem → FindResult × List Query)
    (retr : Option (Query → Nat)) (items : List FileItem) :
    FindResult × List Query :=
  if items.isEmpty then
    ((if retr.isSome then .pyNone else .pyEmptyDict), [])
  else hook retr items

/-- Embedding of `BreakdownManager.get_published_file_history`
(manager lines 203-245): five equality filters on the item's current
record, a query ordered by `version_number` descending only, and a
write of the first returned record onto `latest_published_file`. -/
def manager_get_published_file_history (find : Query → List SgData)
    (item : FileItem) : List SgData × FileItem × List Query :=
  match item.sg_data with
  | none => ([], item, [])
  | some sg =>
    let filters : List SgFilter :=
      [.isf "project" sg.project, .isf "name" sg.name,
       .isf "task" sg.task, .isf "entity" sg.entity,
       .isf "published_file_type" sg.published_file_type]
    let q : Query := ⟨"PublishedFile", filters, [⟨"version_number", .desc⟩]⟩
    match find q with
    | p :: rest => (p :: rest, { item with latest_published_file := some p }, [q])
    | [] => ([], item, [q])

/-! ## `GetPublishedFiles.get_published_files_for_items_data`
(hook, lines 19-55): path-based resolution. -/

/-- Embedding of the path-based resolution hook.  `find_publish` is
`sgtk.util.find_publish`, returning a mapping from path to record; the
second component logs the path lists it was invoked with. -/
def hook_get_published_files_for_items_data
    (find_publish : List String → List (String × SgData))
    (items_data : List ItemDict) : List ItemDict × List (List String) :=
  if items_data.isEmpty then ([], [])
  else
    let file_paths := items_data.map (·.path)
    let publishes := find_publish file_paths
    ( items_data.filterMap (fun d =>
        match publishes.lookup d.path with
        | some rec => some { d with sg_data := some rec }
        | none => none),
      [file_paths] )

/-! ## `BreakdownManager.get_file_items` (manager lines 91-129)

`copy.copy(obj["sg_data"])` creates a new dictionary object whose
top-level keys are copied while values are shared.  To express object
identity, records here live in a heap (`Store`): a scene object's
`sg_data` is an address into the store, a `FileItem` produced by
`get_file_items` holds the address of its freshly allocated copy, and a
top-level key replacement mutates the store at one address. -/

/-- The top-level key/value pairs of a published-file dictionary; the
values are opaque to this operation. -/
abbrev SgDict := List (String × Nat)

/-- The heap of dictionary objects; allocation appends. -/
abbrev Store := List SgDict

/-- A raw scene object, as handed to `get_file_items`: the scan-scene
keys plus an optional reference to a published-file dictionary. -/
structure SceneObject where
  node_name : String
  node_type : String
  path : String
  extra_data : Option ExtraData := none
  sg_data : Option Nat := none
deriving DecidableEq, Repr

/-- A file item produced by `get_file_items`, holding the address of
its own copy of the matched record. -/
structure FileItemRef where
  node_name : String
  node_type : String
  path : String
  extra_data : Option ExtraData
  sg_addr : Nat
deriving DecidableEq, Repr

/-- Python truthiness of `obj.get("sg_data")` against a heap: present
and a non-empty dictionary. -/
def sgTruthy (st : Store) (o : SceneObject) : Bool :=
  match o.sg_data with
  | none => false
  | some a => st.getD a [] ≠ []

/-- Embedding of `BreakdownManager.get_file_items` (manager
lines 91-129): one `FileItem` per scene object with a truthy
`sg_data`, each holding a shallow copy of the matched record allocated
at a fresh address. -/
def get_file_items : Store → List SceneObject → Store × List FileItemRef
  | st, [] => (st, [])
  | st, o :: os =>
    match o.sg_data with
    | none => get_file_items st os
    | some a =>
      if st.getD a [] = [] then get_file_items st os
      else
        let d := st.getD a []
        let res := get_file_items (st ++ [d]) os
        (res.1,
          ⟨o.node_name, o.node_type, o.path, o.extra_data, st.length⟩ :: res.2)

/-- Replace (or insert) a top-level key of a dictionary. -/
def dict_set (d : SgDict) (k : String) (v : Nat) : SgDict :=
  d.filter (fun p => p.1 ≠ k) ++ [(k, v)]

/-- Mutate the dictionary at address `a`: replace top-level key `k`. -/
def store_set_key (st : Store) (a : Nat) (k : String) (v : Nat) : Store :=
  st.set a (dict_set (st.getD a []) k v)

/-- The file items `get_file_items` constructs for the retained scene
objects, with copy addresses allocated consecutively from `base`. -/
def itemsFrom (base : Nat) : List SceneObject → List FileItemRef
  | [] => []
  | o :: os =>
    ⟨o.node_name, o.node_type, o.path, o.extra_data, base⟩ :: itemsFrom (base + 1) os

/-! ## Scene-adapter `update` operations (Nuke and VRED hooks) -/

/-- A Python exception raised by an embedded operation. -/
inductive PyExc where
  | nameError : PyExc
deriving DecidableEq, Repr

/-- Embedding of `BreakdownSceneOperations.update` of
`tk-nuke_scene_operations.py` (lines 106-140).  The bindings of
`node_name`, `node_type` and `extra_data` from the item succeed, but
line 124 then evaluates `not sg_data` where the name `sg_data` is never
assigned anywhere in the function (and is neither a module global nor a
builtin), so Python raises `NameError` there; the remainder of the
function body (lines 126-140) is unreachable. -/
def nuke_update (item : ItemDict) : Except PyExc UpdRet :=
  let _node_name := item.node_name
  let _node_type := item.node_type
  let _extra_data := item.extra_data
  Except.error PyExc.nameError

/-- Embedding of `BreakdownSceneOperations.update` of
`tk-vred_scene_operations.py` (lines 96-133).  The bindings of
`node_name` and `node_type` succeed, but line 111 then evaluates
`not sg_data` where the name `sg_data` is never assigned anywhere in
the function (and is neither a module global nor a builtin), so Python
raises `NameError` there; the remainder of the function body
(lines 113-133) is unreachable. -/
def vred_update (item : ItemDict) : Except PyExc UpdRet :=
  let _node_name := item.node_name
  let _node_type := item.node_type
  Except.error PyExc.nameError

/-! ## Claim theorems -/

/-- C1: for every `FileItem` and target record,
`update_to_specific_version` invokes the scene adapter's `update`
exactly once, on the snapshot dictionary; when the adapter returns a
falsy result the item is left entirely unchanged and the call returns
`False`; when the adapter returns a non-empty path string the call
commits `sg_data` (the target record), `path` (the returned path) and
`extra_data` (from the snapshot dictionary, i.e. the item's own
`extra_data`) and returns `True`. -/
theorem update_to_specific_version_commit_on_success
    (upd : ItemDict → UpdRet) (item : FileItem) (sg : SgData) :
    (manager_update_to_specific_version upd item sg).2.2 = [snapshot item sg]
    ∧ ((upd (snapshot item sg)).truthy = false →
        manager_update_to_specific_version upd item sg =
          (item, false, [snapshot item sg]))
    ∧ (∀ s : String, upd (snapshot item sg) = .pyStr s → s ≠ "" →
        manager_update_to_specific_version upd item sg =
          ({ item with
              sg_data := some sg,
              path := s,
              extra_data := item.extra_data },
            true, [snapshot item sg])) := by
  refine ⟨?_, ?_, ?_⟩
  · unfold manager_update_to_specific_version
    cases upd (snapshot item sg) <;> simp
  · intro h
    unfold manager_update_to_specific_version
    cases hu : upd (snapshot item sg) <;>
      simp [hu, UpdRet.truthy] at h ⊢
    simp [h]
  · intro s hu hs
    unfold manager_update_to_specific_version
    simp [hu, hs, UpdRet.truthy]
    rfl

/-- Witness for C1: a concrete adapter returning the path `/v2/file`
commits all three fields; the hypotheses are discharged at the
concrete input. -/
theorem update_to_specific_version_commit_on_success_witness :
    manager_update_to_specific_version (fun _ => .pyStr "/v2/file")
      { node_name := "n", node_type := "Read", path := "/v1/file",
        extra_data := some 3 }
      { name := .str "a", version_number := 2 } =
      ({ node_name := "n", node_type := "Read", path := "/v2/file",
         extra_data := some 3,
         sg_data := some { name := .str "a", version_number := 2 } },
        true, [snapshot
          { node_name := "n", node_type := "Read", path := "/v1/file",
            extra_data := some 3 }
          { name := .str "a", version_number := 2 }]) :=
  (update_to_specific_version_commit_on_success
    (fun _ => .pyStr "/v2/file")
    { node_name := "n", node_type := "Read", path := "/v1/file",
      extra_data := some 3 }
    { name := .str "a", version_number := 2 }).2.2 "/v2/file" rfl (by decide)

/-- C5: on an empty input list the path-based resolution, the batched
hook lookup (in both synchronous and asynchronous modes) and the
manager's batched lookup all return an empty result and issue no
catalog query. -/
theorem empty_input_short_circuit :
    (∀ fp : List String → List (String × SgData),
      hook_get_published_files_for_items_data fp [] = ([], []))
    ∧ (∀ (find : Query → List SgData) (retr : Option (Query → Nat)),
      hook_get_published_files_for_items find retr [] = (.pyEmptyDict, []))
    ∧ (∀ (hook : Option (Query → Nat) → List FileItem → FindResult × List Query)
        (retr : Option (Query → Nat)),
      manager_get_published_files_for_items hook retr [] =
        ((if retr.isSome then .pyNone else .pyEmptyDict), [])) :=
  ⟨fun _ => rfl, fun _ _ => rfl, fun _ _ => rfl⟩

/-- C6: `update_to_latest_version` returns `False` without invoking
the scene adapter and without modifying the item when no latest
published file is set, and otherwise returns exactly the result of
`update_to_specific_version` on the latest record. -/
theorem update_to_latest_version_delegation
    (upd : ItemDict → UpdRet) (item : FileItem) :
    (item.latest_published_file = none →
      manager_update_to_latest_version upd item = (item, false, []))
    ∧ (∀ sg : SgData, item.latest_published_file = some sg →
      manager_update_to_latest_version upd item =
        manager_update_to_specific_version upd item sg) := by
  constructor
  · intro h
    unfold manager_update_to_latest_version
    rw [h]
  · intro sg h
    unfold manager_update_to_latest_version
    rw [h]

/-- Witness for C6: with no latest published file set, the call is a
no-op returning `False` and invoking no adapter. -/
theorem update_to_latest_version_delegation_witness :
    manager_update_to_latest_version (fun _ => .pyStr "/x")
      { node_name := "n", node_type := "t", path := "/p" } =
      ({ node_name := "n", node_type := "t", path := "/p" }, false, []) :=
  (update_to_latest_version_delegation (fun _ => .pyStr "/x")
    { node_name := "n", node_type := "t", path := "/p" }).1 rfl

/-- C10: when the item is falsy or its `sg_data` unset, the façade's
`get_latest_published_file` returns `None` in asynchronous mode and the
empty dict in synchronous mode, invokes the hook zero times, and
returns the item unmodified. -/
theorem get_latest_published_file_guard (fo : Query → Option SgData)
    (retr : Option (Query → Nat)) (item : Option FileItem)
    (h : item = none ∨ ∃ it, item = some it ∧ it.sg_data = none) :
    manager_get_latest_published_file fo retr item =
      (item, (if retr.isSome then .pyNone else .pyEmptyDict), 0) := by
  rcases h with h | ⟨it, rfl, hsg⟩
  · subst h; rfl
  · simp [manager_get_latest_published_file, hsg]

/-- Witness for C10: a concrete item without `sg_data`, queried
synchronously, yields the empty dict and no hook call. -/
theorem get_latest_published_file_guard_witness :
    manager_get_latest_published_file (fun _ => none) none
      (some { node_name := "n", node_type := "t", path := "/p" }) =
      (some { node_name := "n", node_type := "t", path := "/p" },
        .pyEmptyDict, 0) :=
  get_latest_published_file_guard (fun _ => none) none
    (some { node_name := "n", node_type := "t", path := "/p" })
    (Or.inr ⟨_, rfl, rfl⟩)

/-- C7: for an item with catalog data, the façade's latest lookup in
synchronous mode writes the query result verbatim onto
`latest_published_file` before returning it, and in asynchronous mode
leaves the item unchanged and returns only the pending task id. -/
theorem get_latest_published_file_sync_writeback
    (fo : Query → Option SgData) (it : FileItem) (sg : SgData)
    (h : it.sg_data = some sg) :
    (manager_get_latest_published_file fo none (some it) =
      (some { it with latest_published_file := fo (latestQuery sg) },
        (match fo (latestQuery sg) with
         | some r => LatestResult.pyRecord r
         | none => LatestResult.pyNone), 1))
    ∧ (∀ ex : Query → Nat,
        manager_get_latest_published_file fo (some ex) (some it) =
          (some it, .pyTaskId (ex (latestQuery sg)), 1)) := by
  constructor
  · simp only [manager_get_latest_published_file, h,
      hook_get_latest_published_file, latestQuery, twoKeyOrder]
    cases fo ⟨"PublishedFile", build_latest_filters sg,
      [⟨"version_number", .desc⟩, ⟨"created_at", .desc⟩]⟩ <;> simp
  · intro ex
    simp [manager_get_latest_published_file, h,
      hook_get_latest_published_file, latestQuery, twoKeyOrder]

/-- Witness for C7: a concrete synchronous lookup writes the record
returned by the query onto the item. -/
theorem get_latest_published_file_sync_writeback_witness :
    manager_get_latest_published_file
      (fun _ => some { name := .str "a", version_number := 4 }) none
      (some { node_name := "n", node_type := "t", path := "/p",
              sg_data := some { name := .str "a" } }) =
      (some { node_name := "n", node_type := "t", path := "/p",
              sg_data := some { name := .str "a" },
              latest_published_file :=
                some { name := .str "a", version_number := 4 } },
        .pyRecord { name := .str "a", version_number := 4 }, 1) :=
  (get_latest_published_file_sync_writeback
    (fun _ => some { name := .str "a", version_number := 4 })
    { node_name := "n", node_type := "t", path := "/p",
      sg_data := some { name := .str "a" } }
    { name := .str "a" } rfl).1

/-- The concrete item dictionary at which the Nuke and VRED `update`
operations are evaluated: all the keys of the adapter contract are
present, including a record with a resolved local path. -/
def adapter_item : ItemDict :=
  { node_name := "Read1", node_type := "Read", path := "/proj/old.exr",
    extra_data := some 0,
    sg_data := some { name := .str "old", published_file_type := .ent 1,
                      path_local := some "/proj/new.exr" } }

/-- C9 (code bug): on a well-formed item dictionary, the Nuke and VRED
scene-adapter `update` operations do not return a path or `False` —
both raise `NameError`, because they read the name `sg_data` without
ever assigning it (their sibling Houdini hook binds
`sg_data = item["sg_data"]`; these two hooks dropped that line),
contradicting their own docstrings. -/
theorem nuke_vred_update_raises_name_error :
    nuke_update adapter_item = Except.error PyExc.nameError
    ∧ vred_update adapter_item = Except.error PyExc.nameError :=
  ⟨rfl, rfl⟩

/-- `fieldVal` unfolding for the `project` field. -/
theorem fieldVal_project (r : SgData) : fieldVal r "project" = r.project := rfl

/-- `fieldVal` unfolding for the `entity` field. -/
theorem fieldVal_entity (r : SgData) : fieldVal r "entity" = r.entity := rfl

/-- `fieldVal` unfolding for the `task` field. -/
theorem fieldVal_task (r : SgData) : fieldVal r "task" = r.task := rfl

/-- `fieldVal` unfolding for the `name` field. -/
theorem fieldVal_name (r : SgData) : fieldVal r "name" = r.name := rfl

/-- `fieldVal` unfolding for the `published_file_type` field. -/
theorem fieldVal_pft (r : SgData) :
    fieldVal r "published_file_type" = r.published_file_type := rfl

/-- The item at which the version-history counterexample is evaluated:
it has catalog data, so the history query is issued. -/
def history_item : FileItem :=
  { node_name := "n", node_type := "t", path := "/p",
    sg_data := some { name := .str "a" } }

/-- C2 counterexample: the per-item version-history lookup issues its
query ordered by `version_number` descending only — the concrete query
it issues carries no `created_at` tie-break key, so not every latest
lookup passes the two-key ordering. -/
theorem history_query_single_key_counterexample :
    (manager_get_published_file_history (fun _ => []) history_item).2.2.map
        (fun q => q.order) =
      [[⟨"version_number", Direction.desc⟩]]
    ∧ [⟨"version_number", Direction.desc⟩] ≠ twoKeyOrder := by
  constructor
  · rfl
  · decide

/-- C2 (amended): the batched hook lookup and the single-item hook
lookup pass `version_number` descending with `created_at` descending as
tie-break on every query they issue — so on a result sorted under that
ordering the first record is the latest — while the per-item
version-history lookup of the manager orders by `version_number`
descending only. -/
theorem latest_query_ordering :
    (∀ (find : Query → List SgData) (retr : Option (Query → Nat))
        (items : List SgData),
      ∀ q ∈ (hook_get_published_files_for_items find retr items).2,
        q.order = twoKeyOrder)
    ∧ (∀ (fo : Query → Option SgData) (retr : Option (Query → Nat))
        (sg : SgData),
      ∀ q ∈ (hook_get_latest_published_file fo retr sg).2,
        q.order = twoKeyOrder)
    ∧ (∀ (find : Query → List SgData) (item : FileItem),
      ∀ q ∈ (manager_get_published_file_history find item).2.2,
        q.order = [⟨"version_number", Direction.desc⟩])
    ∧ (∀ l : List SgData, l.Sorted laterEq →
        ∀ r ∈ l, ∀ h : l ≠ [], laterEq (l.head h) r) := by
  refine ⟨?_, ?_, ?_, ?_⟩
  · intro find retr items q hq
    unfold hook_get_published_files_for_items at hq
    by_cases he : items.isEmpty
    · simp [he] at hq
    · cases retr <;> simp [he] at hq <;> subst hq <;> rfl
  · intro fo retr sg q hq
    unfold hook_get_latest_published_file at hq
    cases retr with
    | some ex =>
      simp at hq
      subst hq; rfl
    | none =>
      cases hfo : fo ⟨"PublishedFile", build_latest_filters sg,
          [⟨"version_number", .desc⟩, ⟨"created_at", .desc⟩]⟩ <;>
        simp [hfo] at hq <;> subst hq <;> rfl
  · intro find item q hq
    unfold manager_get_published_file_history at hq
    cases hsg : item.sg_data with
    | none => simp [hsg] at hq
    | some sg =>
      simp only [hsg] at hq
      cases hf : find ⟨"PublishedFile",
          [.isf "project" sg.project, .isf "name" sg.name,
           .isf "task" sg.task, .isf "entity" sg.entity,
           .isf "published_file_type" sg.published_file_type],
          [⟨"version_number", .desc⟩]⟩ <;>
        simp [hf] at hq <;> subst hq <;> rfl
  · intro l hs r hr hne
    cases l with
    | nil => exact absurd rfl hne
    | cons a t =>
      rw [List.head_cons]
      rcases List.mem_cons.mp hr with h | h
      · subst h
        exact Or.inr ⟨rfl, le_refl _⟩
      · exact (List.sorted_cons.mp hs).1 r h

/-- Witness for C2 (amended): concrete instantiations — a batched
query, a single-item query, a history query, and a concretely sorted
two-element list whose head is the latest. -/
theorem latest_query_ordering_witness :
    (⟨"PublishedFile", build_items_filters [{ name := .str "a" }],
      [⟨"version_number", Direction.desc⟩, ⟨"created_at", Direction.desc⟩]⟩ :
        Query).order = twoKeyOrder
    ∧ laterEq { version_number := 3, created_at := 1 }
        { version_number := 2, created_at := 9 } := by
  constructor
  · exact latest_query_ordering.1 (fun _ => []) none [{ name := .str "a" }]
      _ (by simp [hook_get_published_files_for_items])
  · exact latest_query_ordering.2.2.2
      [{ version_number := 3, created_at := 1 },
       { version_number := 2, created_at := 9 }]
      (by simp [List.sorted_cons, laterEq])
      { version_number := 2, created_at := 9 } (by simp) (by simp)

/-- The field name a simple filter predicate constrains (composite
filters carry the `filter_operator` key instead). -/
def SgFilter.fieldName : SgFilter → String
  | .isf f _ => f
  | .inf f _ => f
  | .anyf _ _ => "filter_operator"
  | .allf _ _ => "filter_operator"

/-- The record at which the single-item filter counterexample is
evaluated: every identity field is populated, including a task. -/
def c4_record : SgData :=
  { project := .ent 2, entity := .ent 7, task := .ent 5,
    name := .str "a", published_file_type := .ent 1 }

/-- C4 counterexample: for a concrete record with all identity fields
set, the single-item filter contains no predicate at all on `project`
(and none on `entity`), so it does not emit one equality predicate per
configured identity field. -/
theorem latest_filters_no_project_counterexample :
    SgFilter.isf "project" (FVal.ent 2) ∉ build_latest_filters c4_record
    ∧ "project" ∉ (build_latest_filters c4_record).map SgFilter.fieldName
    ∧ "entity" ∉ (build_latest_filters c4_record).map SgFilter.fieldName := by
  refine ⟨?_, ?_, ?_⟩ <;> decide

/-- C4 (amended): the single-item filter emits equality predicates for
`name` and `published_file_type`; when the record's task is set it adds
a task equality predicate, otherwise an entity equality predicate
together with an explicit task-is-empty predicate (an absent task
renders as "is empty", not as a wildcard); `project` is never
constrained.  A record matches the filter exactly under that
characterization, and matching is independent of the record's
project. -/
theorem latest_filters_characterization (sg r : SgData) :
    (matchesAll (build_latest_filters sg) r = true ↔
      (r.name = sg.name ∧ r.published_file_type = sg.published_file_type ∧
        (if sg.task.truthy then r.task = sg.task
         else r.entity = sg.entity ∧ r.task = .empty)))
    ∧ (∀ p : FVal,
        matchesAll (build_latest_filters sg) { r with project := p } =
          matchesAll (build_latest_filters sg) r) := by
  constructor
  · by_cases h : sg.task.truthy <;>
      simp [matchesAll, build_latest_filters, h, SgFilter.matches,
        fieldVal_name, fieldVal_pft, fieldVal_task, fieldVal_entity,
        and_assoc]
  · intro p
    by_cases h : sg.task.truthy <;>
      simp [matchesAll, build_latest_filters, h, SgFilter.matches,
        fieldVal_name, fieldVal_pft, fieldVal_task, fieldVal_entity]

/-- C3: for a batch mixing items with and without a task, the filter
list built by the batched lookup consists of the name and
published-file-type membership predicates plus the composite
task/entity filter, and that composite filter matches a record exactly
when the record's task is among the present tasks, or the record's
task is empty and its entity is among the entities of the task-less
items — and matches no other record. -/
theorem mixed_batch_filter_exact (items : List SgData) (r : SgData)
    (htask : tasksOf items ≠ []) (hent : entitiesOf items ≠ []) :
    build_items_filters items =
      [.inf "name" (namesOf items),
       .inf "published_file_type" (pfTypesOf items),
       mixed_task_filter items]
    ∧ ((mixed_task_filter items).matches r = true ↔
        (r.task ∈ tasksOf items ∨
          (r.task = .empty ∧ r.entity ∈ entitiesOf items))) := by
  constructor
  · simp [build_items_filters, htask, hent]
  · simp [mixed_task_filter, SgFilter.matches, fieldVal_task,
      fieldVal_entity, List.elem_iff, and_comm]

/-- Witness for C3: a concrete two-item batch, one item with a task
and one without; a record with an empty task and the task-less item's
entity matches the composite filter. -/
theorem mixed_batch_filter_exact_witness :
    (mixed_task_filter
        [{ name := .str "a", task := .ent 5, entity := .ent 1,
           published_file_type := .ent 9 },
         { name := .str "b", task := .empty, entity := .ent 7,
           published_file_type := .ent 9 }]).matches
      { name := .str "b", task := .empty, entity := .ent 7,
        published_file_type := .ent 9 } = true := by
  have h := (mixed_batch_filter_exact
    [{ name := .str "a", task := .ent 5, entity := .ent 1,
       published_file_type := .ent 9 },
     { name := .str "b", task := .empty, entity := .ent 7,
       published_file_type := .ent 9 }]
    { name := .str "b", task := .empty, entity := .ent 7,
      published_file_type := .ent 9 }
    (by decide) (by decide)).2
  exact h.mpr (by decide)

/-- Reading below the old length is unaffected by an allocation. -/
theorem store_getD_append (st : Store) (d e : SgDict) (i : Nat)
    (h : i < st.length) : (st ++ [d]).getD i e = st.getD i e := by
  simp [List.getD, List.getElem?_append, h]

/-- Mutating one address leaves every other address unchanged. -/
theorem store_getD_set_ne (st : Store) (a b : Nat) (d e : SgDict)
    (h : a ≠ b) : (st.set a d).getD b e = st.getD b e := by
  simp [List.getD, List.getElem?_set_ne h]



/-- Unfolding of `sgTruthy` for an object holding an address. -/
theorem sgTruthy_some_iff (st : Store) (o : SceneObject) (a : Nat)
    (ho : o.sg_data = some a) :
    sgTruthy st o = true ↔ st.getD a [] ≠ [] := by
  simp [sgTruthy, ho]

/-- An object without a record reference is never truthy. -/
theorem sgTruthy_none (st : Store) (o : SceneObject)
    (ho : o.sg_data = none) : sgTruthy st o = false := by
  simp [sgTruthy, ho]

/-- Truthiness of a scene object's record is unaffected by an
allocation, as long as the object's address is already allocated. -/
theorem sgTruthy_append (st : Store) (d : SgDict) (o : SceneObject)
    (h : ∀ a, o.sg_data = some a → a < st.length) :
    sgTruthy (st ++ [d]) o = sgTruthy st o := by
  cases ho : o.sg_data with
  | none => rw [sgTruthy_none _ _ ho, sgTruthy_none _ _ ho]
  | some a =>
    have hg := store_getD_append st d [] a (h a ho)
    cases hb : sgTruthy st o with
    | true =>
      have := (sgTruthy_some_iff st o a ho).mp hb
      exact (sgTruthy_some_iff (st ++ [d]) o a ho).mpr (hg ▸ this)
    | false =>
      by_contra hne
      have htr : sgTruthy (st ++ [d]) o = true := by
        cases hx : sgTruthy (st ++ [d]) o with
        | true => rfl
        | false => rw [hx] at hne; exact absurd rfl hne
      have := (sgTruthy_some_iff (st ++ [d]) o a ho).mp htr
      have hst : st.getD a [] ≠ [] := hg ▸ this
      have := (sgTruthy_some_iff st o a ho).mpr hst
      rw [this] at hb
      simp at hb

/-- `itemsFrom` produces one item per retained object. -/
theorem itemsFrom_length (b : Nat) (l : List SceneObject) :
    (itemsFrom b l).length = l.length := by
  induction l generalizing b with
  | nil => rfl
  | cons o os ih => simp only [itemsFrom, List.length_cons, ih]

/-- The copy addresses of `itemsFrom` are consecutive from the base. -/
theorem itemsFrom_get_addr (l : List SceneObject) (b i : Nat)
    (h : i < (itemsFrom b l).length) :
    ((itemsFrom b l).get ⟨i, h⟩).sg_addr = b + i := by
  induction l generalizing b i with
  | nil => simp [itemsFrom] at h
  | cons o os ih =>
    cases i with
    | zero => rfl
    | succ n =>
      have hn : n < (itemsFrom (b + 1) os).length := by
        rw [itemsFrom_length] at h ⊢
        simp only [List.length_cons] at h
        omega
      have h2 := ih (b + 1) n hn
      have hg : (itemsFrom b (o :: os)).get ⟨n + 1, h⟩ =
          (itemsFrom (b + 1) os).get ⟨n, hn⟩ := rfl
      rw [hg, h2]
      omega

/-- Skipping branch of `get_file_items`: an entry with a falsy record
contributes nothing and leaves the store untouched. -/
theorem get_file_items_cons_skip (st : Store) (o : SceneObject)
    (os : List SceneObject) (h : sgTruthy st o = false) :
    get_file_items st (o :: os) = get_file_items st os := by
  cases ho : o.sg_data with
  | none => simp only [get_file_items, ho]
  | some a =>
    have hd : st.getD a [] = [] := by
      by_contra hne
      rw [(sgTruthy_some_iff st o a ho).mpr hne] at h
      simp at h
    simp only [get_file_items, ho]
    rw [if_pos hd]

/-- Keeping branch of `get_file_items`: an entry with a truthy record
allocates a copy at the end of the store and yields one item. -/
theorem get_file_items_cons_keep (st : Store) (o : SceneObject)
    (os : List SceneObject) (a : Nat) (ho : o.sg_data = some a)
    (hd : st.getD a [] ≠ []) :
    get_file_items st (o :: os) =
      ((get_file_items (st ++ [st.getD a []]) os).1,
        ⟨o.node_name, o.node_type, o.path, o.extra_data, st.length⟩ ::
          (get_file_items (st ++ [st.getD a []]) os).2) := by
  simp only [get_file_items, ho]
  rw [if_neg hd]

/-- Closed form of `get_file_items`: the produced items are exactly
the scene objects with a truthy record, in order, with copy addresses
allocated consecutively at the end of the store, and the final store is
the old store extended by one copy of each retained object's record. -/
theorem get_file_items_spec (objs : List SceneObject) (st : Store)
    (hwf : ∀ o ∈ objs, ∀ a, o.sg_data = some a → a < st.length) :
    (get_file_items st objs).2 =
      itemsFrom st.length (objs.filter (fun o => sgTruthy st o))
    ∧ (get_file_items st objs).1 =
      st ++ (objs.filter (fun o => sgTruthy st o)).map
        (fun o => st.getD (o.sg_data.getD 0) []) := by
  induction objs generalizing st with
  | nil => exact ⟨rfl, by simp [get_file_items]⟩
  | cons o os ih =>
    have hwfo : ∀ a, o.sg_data = some a → a < st.length :=
      fun a ha => hwf o (List.mem_cons_self o os) a ha
    have hwfos : ∀ p ∈ os, ∀ a, p.sg_data = some a → a < st.length :=
      fun p hp a ha => hwf p (List.mem_cons_of_mem o hp) a ha
    cases hb : sgTruthy st o with
    | false =>
      rw [get_file_items_cons_skip st o os hb]
      have hrec := ih st hwfos
      simp only [List.filter_cons, hb, Bool.false_eq_true, if_false]
      exact hrec
    | true =>
      obtain ⟨a, ho⟩ : ∃ a, o.sg_data = some a := by
        cases ho : o.sg_data with
        | none => rw [sgTruthy_none st o ho] at hb; exact absurd hb (by simp)
        | some a => exact ⟨a, rfl⟩
      have hd : st.getD a [] ≠ [] := (sgTruthy_some_iff st o a ho).mp hb
      have ha : a < st.length := hwfo a ho
      have hlen : (st ++ [st.getD a []]).length = st.length + 1 := by simp
      have hwfos' : ∀ p ∈ os, ∀ b, p.sg_data = some b →
          b < (st ++ [st.getD a []]).length := by
        intro p hp b hbp
        have h1 := hwfos p hp b hbp
        omega
      have hih := ih (st ++ [st.getD a []]) hwfos'
      have hfil : os.filter (fun p => sgTruthy (st ++ [st.getD a []]) p) =
          os.filter (fun p => sgTruthy st p) :=
        List.filter_congr (fun p hp =>
          sgTruthy_append st (st.getD a []) p (hwfos p hp))
      have hmap : (os.filter (fun p => sgTruthy st p)).map
            (fun p => (st ++ [st.getD a []]).getD (p.sg_data.getD 0) []) =
          (os.filter (fun p => sgTruthy st p)).map
            (fun p => st.getD (p.sg_data.getD 0) []) := by
        apply List.map_congr_left
        intro p hp
        have hpm := List.mem_of_mem_filter hp
        have hpt := List.of_mem_filter hp
        cases hpd : p.sg_data with
        | none => rw [sgTruthy_none st p hpd] at hpt; exact absurd hpt (by simp)
        | some b =>
          have hblt : b < st.length := hwfos p hpm b hpd
          simp only [hpd, Option.getD_some]
          exact store_getD_append st (st.getD a []) [] b hblt
      rw [get_file_items_cons_keep st o os a ho hd]
      constructor
      · dsimp only
        rw [hih.1, hfil]
        simp only [List.filter_cons, hb, if_true]
        rw [hlen, itemsFrom]
      · dsimp only
        rw [hih.2, hfil, hmap]
        simp only [List.filter_cons, hb, if_true, List.map_cons]
        rw [List.append_assoc]
        congr 1
        simp [ho]

/-- C8: `get_file_items` constructs one `FileItem` for exactly the
scene objects whose `sg_data` is present and truthy, in order (objects
without a catalog match are omitted, not an error); each constructed
item holds a shallow copy of its entry's record, allocated at a fresh
address, so replacing a top-level key through one item's record never
changes another item's record — even when two entries referenced the
identical record object. -/
theorem get_file_items_shallow_copy_isolation (st : Store)
    (objs : List SceneObject)
    (hwf : ∀ o ∈ objs, ∀ a, o.sg_data = some a → a < st.length) :
    (get_file_items st objs).2 =
      itemsFrom st.length (objs.filter (fun o => sgTruthy st o))
    ∧ (get_file_items st objs).1 =
      st ++ (objs.filter (fun o => sgTruthy st o)).map
        (fun o => st.getD (o.sg_data.getD 0) [])
    ∧ (∀ i j : Nat, ∀ hi : i < (get_file_items st objs).2.length,
        ∀ hj : j < (get_file_items st objs).2.length,
        i ≠ j → ∀ (k : String) (v : Nat),
        (store_set_key (get_file_items st objs).1
            (((get_file_items st objs).2.get ⟨i, hi⟩).sg_addr) k v).getD
          (((get_file_items st objs).2.get ⟨j, hj⟩).sg_addr) [] =
        (get_file_items st objs).1.getD
          (((get_file_items st objs).2.get ⟨j, hj⟩).sg_addr) []) := by
  obtain ⟨h1, h2⟩ := get_file_items_spec objs st hwf
  refine ⟨h1, h2, ?_⟩
  intro i j hi hj hij k v
  have hai : ((get_file_items st objs).2.get ⟨i, hi⟩).sg_addr =
      st.length + i := by
    rw [List.get_of_eq h1]
    exact itemsFrom_get_addr _ _ _ _
  have haj : ((get_file_items st objs).2.get ⟨j, hj⟩).sg_addr =
      st.length + j := by
    rw [List.get_of_eq h1]
    exact itemsFrom_get_addr _ _ _ _
  rw [hai, haj]
  unfold store_set_key
  exact store_getD_set_ne _ _ _ _ _ (by omega)

/-- The store for the C8 witness: one published-file dictionary at
address 0. -/
def demo_store : Store := [[("path", 1)]]

/-- First scene object of the C8 witness, referencing the shared
record at address 0. -/
def demo_obj1 : SceneObject :=
  { node_name := "A", node_type := "Read", path := "/p", sg_data := some 0 }

/-- Second scene object of the C8 witness, referencing the identical
record object at address 0. -/
def demo_obj2 : SceneObject :=
  { node_name := "B", node_type := "Read", path := "/p", sg_data := some 0 }

/-- Witness for C8: with two scene objects sharing one record object,
replacing a top-level key through the first item's copy leaves the
second item's copy unchanged. -/
theorem get_file_items_shallow_copy_isolation_witness :
    (store_set_key (get_file_items demo_store [demo_obj1, demo_obj2]).1
        (((get_file_items demo_store [demo_obj1, demo_obj2]).2.get
            ⟨0, by decide⟩).sg_addr) "path" 99).getD
      (((get_file_items demo_store [demo_obj1, demo_obj2]).2.get
          ⟨1, by decide⟩).sg_addr) [] =
    (get_file_items demo_store [demo_obj1, demo_obj2]).1.getD
      (((get_file_items demo_store [demo_obj1, demo_obj2]).2.get
          ⟨1, by decide⟩).sg_addr) [] :=
  (get_file_items_shallow_copy_isolation demo_store [demo_obj1, demo_obj2]
    (by decide)).2.2 0 1 (by decide) (by decide) (by decide) "path" 99
